import Mathlib

/-
Verification development for the NOAA hourly-weather ETL pipeline
(katas4.py).  The pipeline has four parts: a CSV extractor, a pandas
transform stage, a SQLite loader with insert-or-replace semantics, and a
report generator.  This file gives a shallow embedding of the transform,
load and report stages and proves the behavioural properties claimed of
them.  Reals are modelled exactly as rationals; pandas cells are modelled
by the `RawVal` type; SQLite state is modelled as a list of rows.
-/

namespace Katas4

/-- A scalar cell value as pandas sees it: missing (NaN/None/NULL), a text
value, or a numeric value.  Reals are modelled exactly as rationals. -/
inductive RawVal where
  | na : RawVal
  | str : String → RawVal
  | num : ℚ → RawVal
deriving DecidableEq

/-- Whether a cell is missing, as tested by pd.isna / dropna. -/
def RawVal.isNA : RawVal → Bool
  | .na => true
  | _ => false

/-- ASCII digit test on a character, by code point. -/
def isDigitChar (c : Char) : Bool := decide (48 ≤ c.toNat ∧ c.toNat ≤ 57)

/-- ASCII whitespace test (space, TAB, LF, VT, FF, CR); these are the
characters the Python float constructor strips from either end. -/
def isSpaceChar (c : Char) : Bool :=
  decide (c.toNat = 32 ∨ c.toNat = 9 ∨ c.toNat = 10 ∨ c.toNat = 11 ∨
          c.toNat = 12 ∨ c.toNat = 13)

/-- Numeric value of a digit string, most significant digit first. -/
def natOfDigits (l : List Char) : Nat :=
  l.foldl (fun a c => 10 * a + (c.toNat - 48)) 0

/-- Strip leading and trailing whitespace from a character list. -/
def stripWS (l : List Char) : List Char :=
  ((l.dropWhile isSpaceChar).reverse.dropWhile isSpaceChar).reverse

/-- Exponent-digits stage of the float grammar: reads `ddd` after
`e`/`e+`/`e-` and scales the mantissa accordingly. -/
def pyExpDigits (base : ℚ) (neg : Bool) (l : List Char) : Option ℚ :=
  if l.isEmpty then none
  else if l.all isDigitChar then
    some (if neg then base / 10 ^ natOfDigits l else base * 10 ^ natOfDigits l)
  else none

/-- Optional exponent suffix of the float grammar (empty, or
`e`/`E` followed by an optionally signed digit string). -/
def pyExp (base : ℚ) (l : List Char) : Option ℚ :=
  match l with
  | [] => some base
  | c :: r =>
    if c = 'e' ∨ c = 'E' then
      match r with
      | '+' :: r2 => pyExpDigits base false r2
      | '-' :: r2 => pyExpDigits base true r2
      | _ => pyExpDigits base false r
    else none

/-- Unsigned mantissa of the float grammar: `ddd`, `ddd.`, `ddd.ddd` or
`.ddd`, followed by an optional exponent. -/
def pyFloatU (l : List Char) : Option ℚ :=
  let ip := l.takeWhile isDigitChar
  let r1 := l.dropWhile isDigitChar
  match r1 with
  | [] => if ip.isEmpty then none else some (natOfDigits ip : ℚ)
  | c :: r2 =>
    if c = '.' then
      let fp := r2.takeWhile isDigitChar
      let r3 := r2.dropWhile isDigitChar
      if ip.isEmpty && fp.isEmpty then none
      else pyExp ((natOfDigits ip : ℚ) + (natOfDigits fp : ℚ) / 10 ^ fp.length) r3
    else if ip.isEmpty then none
    else pyExp (natOfDigits ip : ℚ) (c :: r2)

/-- Model of the Python float constructor on a string, as `none` when it
raises ValueError.  Covers the decimal-literal grammar with optional
surrounding whitespace, sign, fraction and exponent (the inf/nan spellings
and digit-group underscores of CPython are outside the modelled subset). -/
def pyFloat (l : List Char) : Option ℚ :=
  let t := stripWS l
  match t with
  | [] => none
  | c :: r =>
    if c = '+' then pyFloatU r
    else if c = '-' then (pyFloatU r).map (fun x => -x)
    else pyFloatU t

/-- Characters before the first comma: model of val.split(',')[0], which
is the whole string when no comma occurs. -/
def commaHead (l : List Char) : List Char := l.takeWhile (fun c => !(c = ','))

/-- Model of katas4.parse_noaa_val: missing or non-string input gives
`none`; otherwise the part before the first comma is converted by
`pyFloat` (a ValueError is caught and gives `none`), the sentinel 9999
gives `none`, and any other number is divided by 10. -/
def parse_noaa_val (val : RawVal) : Option ℚ :=
  match val with
  | .na => none
  | .num _ => none
  | .str s =>
    (pyFloat (commaHead s.data)).bind
      (fun x => if x = 9999 then none else some (x / 10))

/-- A parsed timestamp, as produced by pd.to_datetime. -/
structure PDateTime where
  year : Nat
  month : Nat
  day : Nat
  hour : Nat
  minute : Nat
  second : Nat
deriving DecidableEq

/-- Two-digit zero-padded decimal rendering. -/
def pad2 (n : Nat) : String :=
  if n < 10 then "0" ++ toString n else toString n

/-- Four-digit zero-padded decimal rendering. -/
def pad4 (n : Nat) : String :=
  if n < 10 then "000" ++ toString n
  else if n < 100 then "00" ++ toString n
  else if n < 1000 then "0" ++ toString n
  else toString n

/-- Model of Series.dt.strftime with format %Y-%m-%d %H:%M:%S. -/
def strftime (d : PDateTime) : String :=
  pad4 d.year ++ "-" ++ pad2 d.month ++ "-" ++ pad2 d.day ++ " " ++
    pad2 d.hour ++ ":" ++ pad2 d.minute ++ ":" ++ pad2 d.second

/-- Digit pair as a number, when both characters are digits. -/
def twoDigits (a b : Char) : Option Nat :=
  if isDigitChar a && isDigitChar b then some (10 * (a.toNat - 48) + (b.toNat - 48))
  else none

/-- Model of pd.to_datetime(·, errors=coerce) on a character list,
restricted to the ISO-like forms YYYY-MM-DD, optionally followed by a
T or space separator and HH:MM:SS.  Anything else coerces to missing
(NaT), as does any out-of-range field; the day-of-month upper bound is
the uniform 31 rather than the per-month bound pandas enforces. -/
def toDatetimeChars : List Char → Option PDateTime
  | [y1, y2, y3, y4, '-', m1, m2, '-', d1, d2] =>
    match twoDigits y1 y2, twoDigits y3 y4, twoDigits m1 m2, twoDigits d1 d2 with
    | some yh, some yl, some mo, some da =>
      if 1 ≤ mo ∧ mo ≤ 12 ∧ 1 ≤ da ∧ da ≤ 31 then
        some ⟨100 * yh + yl, mo, da, 0, 0, 0⟩
      else none
    | _, _, _, _ => none
  | [y1, y2, y3, y4, '-', m1, m2, '-', d1, d2, sep, h1, h2, ':', n1, n2, ':', s1, s2] =>
    if sep = 'T' ∨ sep = ' ' then
      match twoDigits y1 y2, twoDigits y3 y4, twoDigits m1 m2, twoDigits d1 d2,
            twoDigits h1 h2, twoDigits n1 n2, twoDigits s1 s2 with
      | some yh, some yl, some mo, some da, some ho, some mi, some se =>
        if 1 ≤ mo ∧ mo ≤ 12 ∧ 1 ≤ da ∧ da ≤ 31 ∧ ho ≤ 23 ∧ mi ≤ 59 ∧ se ≤ 59 then
          some ⟨100 * yh + yl, mo, da, ho, mi, se⟩
        else none
      | _, _, _, _, _, _, _ => none
    else none
  | _ => none

/-- Model of pd.to_datetime(·, errors=coerce) on one cell: non-string
cells and unparsable strings coerce to missing. -/
def toDatetime : RawVal → Option PDateTime
  | .str s => toDatetimeChars s.data
  | _ => none

/-- One row of a cleaned batch, and also one row of the hourly_weather
table: the transform emits exactly the columns STATION, DATE, NAME,
temp_c, dew_point_c, temp_f, and the loader stores them positionally. -/
structure CleanRow where
  station : RawVal
  date : String
  name : RawVal
  temp_c : Option ℚ
  dew_point_c : Option ℚ
  temp_f : Option ℚ
deriving DecidableEq

/-- A cleaned batch: the NAME column is present only when the raw batch
had it, and the rows. -/
structure CleanChunk where
  hasName : Bool
  rows : List CleanRow
deriving DecidableEq

/-- One raw input row; the cell of a column that is absent from the
enclosing chunk is ignored by every operation. -/
structure RawRow where
  station : RawVal
  date : RawVal
  name : RawVal
  tmp : RawVal
  dew : RawVal
deriving DecidableEq

/-- A raw batch as yielded by the extractor: which of the five relevant
columns the source file provided, and the rows. -/
structure RawChunk where
  hasStation : Bool
  hasDate : Bool
  hasName : Bool
  hasTMP : Bool
  hasDEW : Bool
  rows : List RawRow
deriving DecidableEq

/-- The cleaned row built from a validated raw row and its parsed date:
temp_c and dew_point_c come from parse_noaa_val, temp_f is derived from
temp_c when present. -/
def mkClean (r : RawRow) (d : PDateTime) : CleanRow :=
  let tc := parse_noaa_val r.tmp
  { station := r.station
    date := strftime d
    name := r.name
    temp_c := tc
    dew_point_c := parse_noaa_val r.dew
    temp_f := tc.map (fun x => x * 9 / 5 + 32) }

/-- Model of katas4.transform.  The projection keeps the relevant columns
that exist.  dropna(subset=[STATION, DATE]) raises KeyError when either
column is absent; reading the TMP or DEW column raises KeyError when it
is absent (the filtering between those reads is pure, so the checks are
hoisted).  Rows with a missing key cell are dropped, dates are coerced
and rows whose date coerces to missing are dropped, then the cleaned
columns are computed and TMP/DEW are dropped from the output. -/
def transform (c : RawChunk) : Except String CleanChunk :=
  if !(c.hasStation && c.hasDate) then
    .error ("KeyError: dropna subset STATION, DATE not in frame")
  else if !c.hasTMP then
    .error ("KeyError: TMP")
  else if !c.hasDEW then
    .error ("KeyError: DEW")
  else
    let kept := c.rows.filter (fun r => !r.station.isNA && !r.date.isNA)
    let dated := kept.filterMap (fun r => (toDatetime r.date).map (fun d => (r, d)))
    .ok { hasName := c.hasName, rows := dated.map (fun rd => mkClean rd.1 rd.2) }

/-- The transform's net effect on one raw row, with the validation filter
and the cleaning fused: `none` exactly when the row is dropped. -/
def cleanOfRaw (r : RawRow) : Option CleanRow :=
  if !r.station.isNA && !r.date.isNA then (toDatetime r.date).map (mkClean r)
  else none

/-- The persisted hourly_weather table, in rowid order. -/
abbrev Store := List CleanRow

/-- Whether an existing row a conflicts on the primary key (STATION,
DATE) with a row b: SQLite key conflicts require equality, and a NULL
STATION is never equal to anything. -/
def sameKey (a b : CleanRow) : Bool :=
  decide (a.station ≠ RawVal.na ∧ a.station = b.station ∧ a.date = b.date)

/-- One INSERT OR REPLACE: every row conflicting on the primary key is
deleted and the new row is appended. -/
def upsert (s : Store) (r : CleanRow) : Store :=
  (s.filter (fun x => !(sameKey x r))) ++ [r]

/-- Model of katas4.load: the staged batch is merged row by row, in batch
order, into the table by INSERT OR REPLACE. -/
def load (batch : List CleanRow) (s : Store) : Store :=
  batch.foldl upsert s

/-- The temp_c values of the rows where temp_c is present. -/
def presentTemps (s : Store) : List ℚ := s.filterMap (fun r => r.temp_c)

/-- Model of AVG(temp_c): NULLs are ignored, and the average of no
values is NULL. -/
def avg_c (s : Store) : Option ℚ :=
  if presentTemps s = [] then none
  else some ((presentTemps s).sum / (presentTemps s).length)

/-- The distinct NAME values of the store (GROUP BY NAME groups; SQL
NULLs form one group). -/
def reportNames (s : Store) : List RawVal := (s.map (fun r => r.name)).dedup

/-- Number of store rows carrying a given NAME value. -/
def nameCount (s : Store) (n : RawVal) : Nat :=
  (s.filter (fun r => r.name == n)).length

/-- Model of the GROUP BY NAME query: each distinct NAME with its row
count. -/
def stationsSummary (s : Store) : List (RawVal × Nat) :=
  (reportNames s).map (fun n => (n, nameCount s n))

/-- Fixed-point rendering with two decimals, the model of the Python
format specifier .2f; ties round away from zero on the exact rational.
Computed on the numerator and denominator so that it evaluates by kernel
reduction. -/
def fmtFixed2 (q : ℚ) : String :=
  let sign := if q.num < 0 then "-" else ""
  let m : Nat := (200 * q.num.natAbs + q.den) / (2 * q.den)
  sign ++ toString (m / 100) ++ "." ++ pad2 (m % 100)

/-- The contents of the generated report that the claims speak about:
the aggregate line and the per-NAME table. -/
structure Report where
  statsLine : String
  stations : List (RawVal × Nat)
deriving DecidableEq

/-- Model of katas4.generate_report.  COUNT gives the row count and AVG
the mean of the present temp_c values; when that mean is NULL the f-string
raises TypeError while formatting it (None has no .2f format), so no
report is produced. -/
def generate_report (s : Store) : Except String Report :=
  match avg_c s with
  | none => .error ("TypeError: unsupported format string passed to NoneType.__format__")
  | some q =>
    .ok { statsLine := "Processed " ++ toString s.length ++
            " records. Average Temp: " ++ fmtFixed2 q ++ "°C"
          stations := stationsSummary s }

/-- Whether some row of the batch conflicts with x on the primary key. -/
def matchAny (batch : List CleanRow) (x : CleanRow) : Bool :=
  batch.any (fun b => sameKey x b)

/-- Sample raw row with all fields present and well formed. -/
def rawW : RawRow :=
  ⟨.str "001", .str "2023-01-01T00:00:00", .str "A", .str "+0150,5", .str "+0050,5"⟩

/-- Sample raw row whose STATION cell is missing. -/
def rawBad : RawRow := ⟨.na, .str "2023-01-02T00:00:00", .str "B", .str "9999,9", .na⟩

/-- Sample batch with every relevant column present. -/
def chunkW : RawChunk := ⟨true, true, true, true, true, [rawW]⟩

/-- Sample batch mixing a valid and an invalid row. -/
def chunkMix : RawChunk := ⟨true, true, true, true, true, [rawW, rawBad]⟩

/-- Sample batch lacking the TMP column. -/
def chunkNoTMP : RawChunk := ⟨true, true, true, false, true, [rawW]⟩

/-- Sample batch lacking only the NAME column. -/
def chunkNoName : RawChunk := ⟨true, true, false, true, true, [rawW]⟩

/-- The parsed timestamp of rawW's DATE cell. -/
def dtW : PDateTime := ⟨2023, 1, 1, 0, 0, 0⟩

/-- Sample cleaned row for station 001 with temp_c 15. -/
def crA : CleanRow := ⟨.str "001", "2023-01-01 00:00:00", .str "A", some 15, some 5, some 59⟩

/-- Sample cleaned row for station 001 with temp_c 25: same key as crA,
different values. -/
def crA2 : CleanRow := ⟨.str "001", "2023-01-01 00:00:00", .str "A", some 25, none, none⟩

/-- Sample cleaned row for station 002 with temp_c 25. -/
def crC : CleanRow := ⟨.str "002", "2023-01-01 00:00:00", .str "B", some 25, none, none⟩

/-- Sample cleaned row for station 003 with no temperature reading. -/
def crB : CleanRow := ⟨.str "003", "2023-01-01 00:00:00", .str "B", none, none, none⟩

/-
Helper lemmas about primary-key conflicts and the loader.
-/

lemma sameKey_iff (a b : CleanRow) :
    sameKey a b = true ↔ a.station ≠ RawVal.na ∧ a.station = b.station ∧ a.date = b.date := by
  simp [sameKey]

lemma sameKey_left_of {x b k : CleanRow} (h1 : sameKey x k = true)
    (h2 : sameKey x b = true) : sameKey b k = true := by
  rw [sameKey_iff] at h1 h2 ⊢
  obtain ⟨hna, hs, hd⟩ := h1
  obtain ⟨_, hs2, hd2⟩ := h2
  refine ⟨?_, ?_, ?_⟩
  · rw [← hs2]; exact hna
  · rw [← hs2]; exact hs
  · rw [← hd2]; exact hd

lemma sameKey_right_of {x r k : CleanRow} (h1 : sameKey x k = true)
    (h2 : sameKey r k = true) : sameKey x r = true := by
  rw [sameKey_iff] at h1 h2 ⊢
  obtain ⟨hna, hs, hd⟩ := h1
  obtain ⟨_, hs2, hd2⟩ := h2
  exact ⟨hna, hs.trans hs2.symm, hd.trans hd2.symm⟩

lemma load_nil (s : Store) : load [] s = s := rfl

lemma load_cons (r : CleanRow) (t : List CleanRow) (s : Store) :
    load (r :: t) s = load t (upsert s r) := rfl

lemma matchAny_cons (b : CleanRow) (t : List CleanRow) (x : CleanRow) :
    matchAny (b :: t) x = (sameKey x b || matchAny t x) := by
  simp [matchAny]

lemma filter_self_idem (p : CleanRow → Bool) (l : List CleanRow) :
    (l.filter p).filter p = l.filter p := by
  rw [List.filter_filter]
  exact List.filter_congr (fun a _ => Bool.and_self (p a))

lemma load_decomp (batch : List CleanRow) (s : Store) :
    load batch s = s.filter (fun x => !matchAny batch x) ++ load batch [] := by
  induction batch generalizing s with
  | nil => simp [load, matchAny]
  | cons r t ih =>
    rw [load_cons, ih (upsert s r), load_cons, ih (upsert [] r)]
    show (upsert s r).filter _ ++ _ =
      s.filter (fun x => !matchAny (r :: t) x) ++ ((upsert [] r).filter _ ++ _)
    unfold upsert
    rw [List.filter_append, List.filter_filter, List.filter_nil, List.nil_append,
      List.append_assoc]
    congr 1
    apply List.filter_congr
    intro x _
    cases h1 : sameKey x r <;> cases h2 : matchAny t x <;>
      simp [matchAny_cons, h1, h2]

lemma mem_load {x : CleanRow} (batch : List CleanRow) (s : Store)
    (h : x ∈ load batch s) : x ∈ s ∨ x ∈ batch := by
  induction batch generalizing s with
  | nil => exact Or.inl h
  | cons r t ih =>
    rw [load_cons] at h
    rcases ih _ h with h1 | h1
    · unfold upsert at h1
      rcases List.mem_append.mp h1 with h2 | h2
      · exact Or.inl (List.mem_filter.mp h2).1
      · simp only [List.mem_singleton] at h2
        exact Or.inr (by simp [h2])
    · exact Or.inr (List.mem_cons_of_mem _ h1)

lemma load_filter_key (batch : List CleanRow) (s : Store) (k : CleanRow)
    (hb : batch.filter (fun b => sameKey b k) = []) :
    (load batch s).filter (fun x => sameKey x k) = s.filter (fun x => sameKey x k) := by
  induction batch generalizing s with
  | nil => rfl
  | cons b t ih =>
    rw [List.filter_cons] at hb
    by_cases hbk : sameKey b k = true
    · rw [if_pos hbk] at hb
      exact absurd hb (by simp)
    · rw [if_neg hbk] at hb
      rw [load_cons, ih _ hb]
      unfold upsert
      rw [List.filter_append, List.filter_filter]
      have h1 : [b].filter (fun x => sameKey x k) = [] := by
        simp [hbk]
      rw [h1, List.append_nil]
      apply List.filter_congr
      intro x _
      cases h2 : sameKey x k with
      | false => simp
      | true =>
        have h3 : sameKey x b = false := by
          cases h4 : sameKey x b with
          | false => rfl
          | true => exact absurd (sameKey_left_of h2 h4) hbk
        simp [h3]

lemma filter_key_nil_of_nil {s : Store} {k : CleanRow}
    (hs : s.filter (fun x => sameKey x k) = []) (p : CleanRow → Bool) :
    (s.filter p).filter (fun x => sameKey x k) = [] := by
  rw [List.filter_filter, List.filter_eq_nil_iff]
  rw [List.filter_eq_nil_iff] at hs
  intro a ha hcontra
  exact hs a ha ((Bool.and_eq_true _ _).mp hcontra).1

lemma load_key_unique (k r : CleanRow) (batch : List CleanRow) (s : Store)
    (hb : batch.filter (fun b => sameKey b k) = [r])
    (hs : s.filter (fun x => sameKey x k) = []) :
    (load batch s).filter (fun x => sameKey x k) = [r] := by
  induction batch generalizing s with
  | nil => exact absurd hb (by simp)
  | cons b t ih =>
    rw [List.filter_cons] at hb
    by_cases hbk : sameKey b k = true
    · rw [if_pos hbk] at hb
      injection hb with h1 h2
      subst h1
      rw [load_cons, load_filter_key t _ k h2]
      unfold upsert
      rw [List.filter_append, filter_key_nil_of_nil hs, List.nil_append]
      simp [hbk]
    · rw [if_neg hbk] at hb
      rw [load_cons]
      apply ih _ hb
      unfold upsert
      rw [List.filter_append, filter_key_nil_of_nil hs, List.nil_append]
      simp [hbk]

/-- Claim C6: the load operation is idempotent.  For every cleaned batch
(whose rows, being transform output, carry a non-missing STATION) and
every initial store state, loading the batch twice yields exactly the
same store state, rows and field values included, as loading it once. -/
theorem load_idempotent (batch : List CleanRow) (s : Store)
    (h : ∀ r ∈ batch, r.station ≠ RawVal.na) :
    load batch (load batch s) = load batch s := by
  have hnil : (load batch []).filter (fun x => !matchAny batch x) = [] := by
    rw [List.filter_eq_nil_iff]
    intro a ha
    have hmem : a ∈ batch := by
      rcases mem_load batch [] ha with h1 | h1
      · cases h1
      · exact h1
    have hself : sameKey a a = true :=
      (sameKey_iff a a).mpr ⟨h a hmem, rfl, rfl⟩
    simp only [Bool.not_eq_true', Bool.not_eq_false]
    unfold matchAny
    rw [List.any_eq_true]
    exact ⟨a, hmem, hself⟩
  calc load batch (load batch s)
      = (load batch s).filter (fun x => !matchAny batch x) ++ load batch [] :=
        load_decomp batch (load batch s)
    _ = (s.filter (fun x => !matchAny batch x) ++ load batch []).filter
          (fun x => !matchAny batch x) ++ load batch [] := by
        rw [← load_decomp batch s]
    _ = s.filter (fun x => !matchAny batch x) ++ load batch [] := by
        rw [List.filter_append, filter_self_idem, hnil, List.append_nil]
    _ = load batch s := (load_decomp batch s).symm

/-- Witness for C6 at a concrete two-row batch and the empty store. -/
theorem load_idempotent_witness :
    load [crA, crB] (load [crA, crB] []) = load [crA, crB] [] :=
  load_idempotent [crA, crB] [] (by decide)

/-- Claim C7: upsert-overwrite.  If the store contains a row r0 with key
(STATION, DATE) and the batch contains exactly one row r with that key,
carrying different field values, then after the load the store holds
exactly the single row r for that key: the old values are replaced and
the row is not duplicated. -/
theorem load_upsert_overwrite (s : Store) (batch : List CleanRow) (r0 r : CleanRow)
    (h0 : r0 ∈ s) (hk : sameKey r r0 = true) (hne : r ≠ r0)
    (hb : batch.filter (fun b => sameKey b r0) = [r]) :
    (load batch s).filter (fun x => sameKey x r0) = [r] := by
  have hrb : r ∈ batch := by
    have : r ∈ batch.filter (fun b => sameKey b r0) := by rw [hb]; simp
    exact (List.mem_filter.mp this).1
  rw [load_decomp, List.filter_append]
  have h1 : (s.filter (fun x => !matchAny batch x)).filter (fun x => sameKey x r0) = [] := by
    rw [List.filter_filter, List.filter_eq_nil_iff]
    intro a _ hcontra
    obtain ⟨h2, h3⟩ := (Bool.and_eq_true _ _).mp hcontra
    have h4 : matchAny batch a = true := by
      unfold matchAny
      rw [List.any_eq_true]
      exact ⟨r, hrb, sameKey_right_of h2 hk⟩
    rw [h4] at h3
    cases h3
  rw [h1, List.nil_append]
  exact load_key_unique r0 r batch [] hb rfl

/-- Witness for C7: a one-row store whose single row is overwritten. -/
theorem load_upsert_overwrite_witness :
    (load [crA2] [crA]).filter (fun x => sameKey x crA) = [crA2] :=
  load_upsert_overwrite [crA] [crA2] crA crA2 (by decide) (by decide) (by decide)
    (by decide)

/-- Claim C8: frame property of load.  For every key not conflicting with
any row of the batch, the store's rows for that key are exactly what they
were before the load: load never deletes or modifies rows outside the
batch's key set. -/
theorem load_frame_property (s : Store) (batch : List CleanRow) (k : CleanRow)
    (hb : batch.filter (fun b => sameKey b k) = []) :
    (load batch s).filter (fun x => sameKey x k) = s.filter (fun x => sameKey x k) :=
  load_filter_key batch s k hb

/-- Witness for C8: loading a station-001 row leaves the station-003 row
untouched. -/
theorem load_frame_property_witness :
    (load [crA2] [crB]).filter (fun x => sameKey x crB) =
      [crB].filter (fun x => sameKey x crB) :=
  load_frame_property [crB] [crA2] crB (by decide)

/-
Transform stage: fusion of the validation filter with the cleaning map,
and the claims about column presence and derived fields.
-/

lemma clean_pipeline (l : List RawRow) :
    ((l.filter (fun r => !r.station.isNA && !r.date.isNA)).filterMap
        (fun r => (toDatetime r.date).map (fun d => (r, d)))).map
      (fun rd => mkClean rd.1 rd.2) = l.filterMap cleanOfRaw := by
  induction l with
  | nil => rfl
  | cons r t ih =>
    by_cases h : (!r.station.isNA && !r.date.isNA) = true
    · cases hd : toDatetime r.date with
      | none => simp [List.filter_cons, h, List.filterMap_cons, hd, ih, cleanOfRaw]
      | some d => simp [List.filter_cons, h, List.filterMap_cons, hd, ih, cleanOfRaw]
    · have h2 : (!r.station.isNA && !r.date.isNA) = false := by
        cases h3 : (!r.station.isNA && !r.date.isNA) with
        | false => rfl
        | true => exact absurd h3 h
      simp [List.filter_cons, h2, List.filterMap_cons, ih, cleanOfRaw]

/-- Claim C4: with all relevant columns present, the transform keeps
exactly the rows that have a STATION and a DATE cell and whose DATE
parses, cleaning each of them; the dropped rows contribute nothing to the
output batch and hence nothing to the loader's committed store. -/
theorem transform_row_filtering (c : RawChunk)
    (h1 : c.hasStation = true) (h2 : c.hasDate = true)
    (h3 : c.hasTMP = true) (h4 : c.hasDEW = true) :
    transform c = .ok { hasName := c.hasName, rows := c.rows.filterMap cleanOfRaw } := by
  unfold transform
  rw [h1, h2, h3, h4]
  simp only [Bool.and_self, Bool.not_true, Bool.false_eq_true, if_false]
  rw [clean_pipeline]

/-- Witness for C4 on a batch holding one valid row and one row with a
missing STATION. -/
theorem transform_row_filtering_witness :
    transform chunkMix =
      .ok { hasName := chunkMix.hasName, rows := chunkMix.rows.filterMap cleanOfRaw } :=
  transform_row_filtering chunkMix rfl rfl rfl rfl

/-- Claim C5: in every transform output row, a present temp_c forces
temp_f = temp_c * 9/5 + 32 and an absent temp_c forces an absent
temp_f. -/
theorem transform_temp_f_derived (c : RawChunk) (out : CleanChunk)
    (hok : transform c = .ok out) :
    ∀ r ∈ out.rows,
      (∀ t, r.temp_c = some t → r.temp_f = some (t * 9 / 5 + 32)) ∧
      (r.temp_c = none → r.temp_f = none) := by
  intro r hr
  unfold transform at hok
  split at hok
  · cases hok
  · split at hok
    · cases hok
    · split at hok
      · cases hok
      · injection hok with hout
        subst hout
        simp only [List.mem_map] at hr
        obtain ⟨rd, _, hrd⟩ := hr
        subst hrd
        cases hp : parse_noaa_val rd.1.tmp with
        | none =>
          refine ⟨fun t ht => ?_, fun _ => ?_⟩
          · rw [show (mkClean rd.1 rd.2).temp_c = parse_noaa_val rd.1.tmp from rfl, hp] at ht
            cases ht
          · show (parse_noaa_val rd.1.tmp).map _ = none
            rw [hp]
            rfl
        | some v =>
          refine ⟨fun t ht => ?_, fun hn => ?_⟩
          · rw [show (mkClean rd.1 rd.2).temp_c = parse_noaa_val rd.1.tmp from rfl, hp] at ht
            injection ht with ht
            subst ht
            show (parse_noaa_val rd.1.tmp).map _ = _
            rw [hp]
            rfl
          · rw [show (mkClean rd.1 rd.2).temp_c = parse_noaa_val rd.1.tmp from rfl, hp] at hn
            cases hn

/-- Witness for C5 at the cleaned row produced from rawW. -/
theorem transform_temp_f_derived_witness :
    (∀ t, (mkClean rawW dtW).temp_c = some t →
        (mkClean rawW dtW).temp_f = some (t * 9 / 5 + 32)) ∧
      ((mkClean rawW dtW).temp_c = none → (mkClean rawW dtW).temp_f = none) :=
  transform_temp_f_derived chunkW ⟨true, [mkClean rawW dtW]⟩ rfl (mkClean rawW dtW)
    (by simp)

/-- Counterexample to claim C3 as stated: a raw batch lacking the TMP
column makes the transform raise a KeyError instead of succeeding with
that column omitted. -/
theorem transform_missing_tmp_errors :
    transform chunkNoTMP = Except.error ("KeyError: TMP") ∧
      ∀ out, transform chunkNoTMP = Except.ok out → False := by
  refine ⟨rfl, fun out h => ?_⟩
  rw [show transform chunkNoTMP = Except.error ("KeyError: TMP") from rfl] at h
  cases h

/-- Claim C3 as amended: the transform tolerates only a missing NAME
column, which it silently omits from its output; it succeeds exactly when
STATION, DATE, TMP and DEW are all present, and raises a KeyError
otherwise. -/
theorem transform_column_presence (c : RawChunk) :
    ((∃ out, transform c = .ok out) ↔
      (c.hasStation && c.hasDate && c.hasTMP && c.hasDEW) = true) ∧
    (∀ out, transform c = .ok out → out.hasName = c.hasName) := by
  constructor
  · constructor
    · rintro ⟨out, h⟩
      unfold transform at h
      split at h
      · cases h
      · split at h
        · cases h
        · split at h
          · cases h
          · rename_i hsd htmp hdew
            simp only [Bool.not_eq_true', Bool.not_eq_false] at hsd htmp hdew
            rw [hsd, htmp, hdew]
            rfl
    · intro h
      obtain ⟨h1, h4⟩ := (Bool.and_eq_true _ _).mp h
      obtain ⟨h2, h3⟩ := (Bool.and_eq_true _ _).mp h1
      obtain ⟨hs, hd⟩ := (Bool.and_eq_true _ _).mp h2
      unfold transform
      rw [hs, hd, h3, h4]
      exact ⟨_, rfl⟩
  · intro out h
    unfold transform at h
    split at h
    · cases h
    · split at h
      · cases h
      · split at h
        · cases h
        · injection h with hout
          rw [← hout]

/-- Witness for the amended C3: a batch lacking only NAME transforms
successfully and its output omits NAME. -/
theorem transform_column_presence_witness :
    (∃ out, transform chunkNoName = .ok out) ∧
      ∀ out, transform chunkNoName = .ok out → out.hasName = false := by
  refine ⟨(transform_column_presence chunkNoName).1.mpr (by decide), fun out h => ?_⟩
  exact (transform_column_presence chunkNoName).2 out h

/-
Encoded-value parser: the absence cases of C1, and the signed-integer
success case of C2.
-/

/-- Counterexample to claim C1 as stated: the string 150 contains no
comma, so it is not a two-part comma string, yet the parser returns the
present value 15 rather than absence (Python's split returns the whole
string when the separator does not occur). -/
theorem parse_noaa_val_no_comma_present :
    parse_noaa_val (RawVal.str "150") = some 15 ∧ (',' ∈ "150".data → False) := by
  constructor
  · have h : parse_noaa_val (RawVal.str "150") = some ((150 : ℚ) / 10) := rfl
    rw [h]
    norm_num
  · decide

/-- Claim C1 as amended: the parsed value is absent whenever the input is
not text (missing or numeric), or the part before the first comma fails
to convert as a float, or it converts to the sentinel 9999; the parser is
a total function, so no malformed content raises. -/
theorem parse_noaa_val_absent_cases :
    (parse_noaa_val RawVal.na = none) ∧
    (∀ q : ℚ, parse_noaa_val (RawVal.num q) = none) ∧
    (∀ s : String, pyFloat (commaHead s.data) = none →
      parse_noaa_val (RawVal.str s) = none) ∧
    (∀ s : String, pyFloat (commaHead s.data) = some 9999 →
      parse_noaa_val (RawVal.str s) = none) := by
  refine ⟨rfl, fun q => rfl, fun s h => ?_, fun s h => ?_⟩
  · show (pyFloat (commaHead s.data)).bind _ = none
    rw [h, Option.none_bind]
  · show (pyFloat (commaHead s.data)).bind _ = none
    rw [h, Option.some_bind, if_pos rfl]

/-- Witness for the amended C1 at a missing cell, a numeric cell, a
non-numeric string and a sentinel string. -/
theorem parse_noaa_val_absent_cases_witness :
    parse_noaa_val RawVal.na = none ∧ parse_noaa_val (RawVal.num 5) = none ∧
      parse_noaa_val (RawVal.str "abc,1") = none ∧
      parse_noaa_val (RawVal.str "9999,9") = none :=
  ⟨parse_noaa_val_absent_cases.1,
   parse_noaa_val_absent_cases.2.1 5,
   parse_noaa_val_absent_cases.2.2.1 "abc,1" (by decide),
   parse_noaa_val_absent_cases.2.2.2 "9999,9" (by decide)⟩

lemma digit_ne_comma {c : Char} (h : isDigitChar c = true) : c ≠ ',' := by
  intro he
  subst he
  exact absurd h (by decide)

lemma digit_not_space {c : Char} (h : isDigitChar c = true) : isSpaceChar c = false := by
  revert h
  simp only [isDigitChar, isSpaceChar, decide_eq_true_eq, decide_eq_false_iff_not]
  omega

lemma digit_ne_plus {c : Char} (h : isDigitChar c = true) : ¬(c = '+') := by
  intro he
  subst he
  exact absurd h (by decide)

lemma digit_ne_minus {c : Char} (h : isDigitChar c = true) : ¬(c = '-') := by
  intro he
  subst he
  exact absurd h (by decide)

lemma commaHead_left (xs rest : List Char) (h : ∀ c ∈ xs, c ≠ ',') :
    commaHead (xs ++ ',' :: rest) = xs := by
  induction xs with
  | nil => simp [commaHead, List.takeWhile_cons]
  | cons a t ih =>
    have ha : a ≠ ',' := h a (by simp)
    have ih2 := ih (fun c hc => h c (by simp [hc]))
    simp only [commaHead, List.cons_append, List.takeWhile_cons] at ih2 ⊢
    rw [if_pos (by simp [ha]), ih2]

lemma dropWhile_of_neg {p : Char → Bool} {l : List Char}
    (h : ∀ c ∈ l, p c = false) : l.dropWhile p = l := by
  cases l with
  | nil => rfl
  | cons a t => rw [List.dropWhile_cons, h a (by simp)]; simp

lemma stripWS_id {l : List Char} (h : ∀ c ∈ l, isSpaceChar c = false) :
    stripWS l = l := by
  unfold stripWS
  rw [dropWhile_of_neg h, dropWhile_of_neg (fun c hc => h c (List.mem_reverse.mp hc)),
    List.reverse_reverse]

lemma takeWhile_digits {ds : List Char} (h : ∀ c ∈ ds, isDigitChar c = true) :
    ds.takeWhile isDigitChar = ds ∧ ds.dropWhile isDigitChar = [] := by
  induction ds with
  | nil => exact ⟨rfl, rfl⟩
  | cons a t ih =>
    have ha := h a (by simp)
    have ht := ih (fun c hc => h c (by simp [hc]))
    rw [List.takeWhile_cons, List.dropWhile_cons, if_pos ha, if_pos ha, ht.1, ht.2]
    exact ⟨rfl, rfl⟩

lemma pyFloatU_digits {ds : List Char} (hne : ds ≠ [])
    (h : ∀ c ∈ ds, isDigitChar c = true) :
    pyFloatU ds = some (natOfDigits ds : ℚ) := by
  obtain ⟨h1, h2⟩ := takeWhile_digits h
  unfold pyFloatU
  simp only [h1, h2]
  rw [if_neg (by simp [hne])]

lemma pyFloat_signed (sg ds : List Char)
    (hsg : sg = [] ∨ sg = ['+'] ∨ sg = ['-'])
    (hne : ds ≠ []) (h : ∀ c ∈ ds, isDigitChar c = true) :
    pyFloat (sg ++ ds) =
      some (if sg = ['-'] then -(natOfDigits ds : ℚ) else (natOfDigits ds : ℚ)) := by
  have hsp : ∀ c ∈ sg ++ ds, isSpaceChar c = false := by
    intro c hc
    rcases List.mem_append.mp hc with hc1 | hc1
    · rcases hsg with h0 | h0 | h0 <;> subst h0
      · cases hc1
      · simp only [List.mem_singleton] at hc1; subst hc1; decide
      · simp only [List.mem_singleton] at hc1; subst hc1; decide
    · exact digit_not_space (h c hc1)
  rcases hsg with h0 | h0 | h0 <;> subst h0
  · rw [List.nil_append]
    cases ds with
    | nil => exact absurd rfl hne
    | cons a t =>
      have ha := h a (by simp)
      unfold pyFloat
      rw [stripWS_id (by rw [List.nil_append] at hsp; exact hsp)]
      simp only [if_neg (digit_ne_plus ha), if_neg (digit_ne_minus ha)]
      rw [pyFloatU_digits hne h]
      simp
  · unfold pyFloat
    rw [stripWS_id hsp]
    simp only [List.singleton_append, if_pos rfl]
    rw [pyFloatU_digits hne h]
    simp
  · unfold pyFloat
    rw [stripWS_id hsp]
    have hpm : ¬(('-' : Char) = '+') := by decide
    simp only [List.singleton_append, if_neg hpm, if_pos rfl]
    rw [pyFloatU_digits hne h]
    simp

/-- Claim C2: every encoded string of the form signed-integer, comma,
anything, whose (signed) integer part is not 9999, parses to that integer
divided by 10. -/
theorem parse_noaa_val_signed_int (sg ds rest : List Char)
    (hsg : sg = [] ∨ sg = ['+'] ∨ sg = ['-'])
    (hne : ds ≠ [])
    (hds : ∀ c ∈ ds, isDigitChar c = true)
    (hv : (if sg = ['-'] then -(natOfDigits ds : ℚ) else (natOfDigits ds : ℚ)) ≠ 9999) :
    parse_noaa_val (RawVal.str (String.mk (sg ++ ds ++ ',' :: rest))) =
      some ((if sg = ['-'] then -(natOfDigits ds : ℚ) else (natOfDigits ds : ℚ)) / 10) := by
  have hcm : ∀ c ∈ sg ++ ds, c ≠ ',' := by
    intro c hc
    rcases List.mem_append.mp hc with hc1 | hc1
    · rcases hsg with h0 | h0 | h0 <;> subst h0
      · cases hc1
      · simp only [List.mem_singleton] at hc1; subst hc1; decide
      · simp only [List.mem_singleton] at hc1; subst hc1; decide
    · exact digit_ne_comma (hds c hc1)
  show (pyFloat (commaHead (sg ++ ds ++ ',' :: rest))).bind _ = _
  rw [commaHead_left (sg ++ ds) rest hcm, pyFloat_signed sg ds hsg hne hds,
    Option.some_bind, if_neg hv]

/-- Witness for C2: the spec's edge case, a zero reading 0000 with
quality code 1 parses to the present value 0, not absence. -/
theorem parse_noaa_val_signed_int_witness :
    parse_noaa_val (RawVal.str "0000,1") = some 0 := by
  have h := parse_noaa_val_signed_int [] ['0', '0', '0', '0'] ['1'] (Or.inl rfl)
    (by decide) (by decide) (by decide)
  rw [show String.mk ([] ++ ['0', '0', '0', '0'] ++ ',' :: ['1']) = "0000,1" from rfl] at h
  rw [h, if_neg (by decide), show ((natOfDigits ['0', '0', '0', '0'] : ℚ)) = 0 from rfl,
    zero_div]

/-
Report stage: contents of a successful report, and the failure on a
store with no present temperature.
-/

/-- Counterexample to claim C9 as stated: a populated store (one row)
whose only temp_c is absent makes report generation fail instead of
stating the row count, mean and per-NAME counts. -/
theorem generate_report_populated_fails :
    generate_report [crB] =
      Except.error ("TypeError: unsupported format string passed to NoneType.__format__") ∧
      [crB].length = 1 := ⟨rfl, rfl⟩

/-- Claim C9 as amended: for every store with at least one present temp_c
value, the report is produced and states the total row count, the mean of
temp_c over exactly the rows where it is present, and one count per NAME
giving that NAME's number of rows. -/
theorem generate_report_contents (s : Store) (h : ¬presentTemps s = []) :
    ∃ rep, generate_report s = .ok rep ∧
      rep.statsLine = "Processed " ++ toString s.length ++ " records. Average Temp: " ++
        fmtFixed2 ((presentTemps s).sum / (presentTemps s).length) ++ "°C" ∧
      (∀ n k, (n, k) ∈ rep.stations → k = nameCount s n) ∧
      (∀ r ∈ s, (r.name, nameCount s r.name) ∈ rep.stations) := by
  have havg : avg_c s = some ((presentTemps s).sum / (presentTemps s).length) := by
    unfold avg_c
    rw [if_neg h]
  have hrep : generate_report s =
      .ok { statsLine := "Processed " ++ toString s.length ++ " records. Average Temp: " ++
              fmtFixed2 ((presentTemps s).sum / (presentTemps s).length) ++ "°C"
            stations := stationsSummary s } := by
    unfold generate_report
    rw [havg]
  refine ⟨_, hrep, rfl, fun n k hk => ?_, fun r hr => ?_⟩
  · obtain ⟨m, _, he⟩ := List.mem_map.mp hk
    injection he with he1 he2
    rw [← he2, ← he1]
  · exact List.mem_map.mpr
      ⟨r.name, List.mem_dedup.mpr (List.mem_map.mpr ⟨r, hr, rfl⟩), rfl⟩

lemma avg_two_rows :
    ((presentTemps [crA, crC]).sum / ((presentTemps [crA, crC]).length : ℚ)) = 20 := by
  show ((15 : ℚ) + (25 + 0)) / ((2 : ℕ) : ℚ) = 20
  norm_num

/-- Witness for the amended C9: the spec's example store with temp_c 15
and 25 reports the exact aggregate line. -/
theorem generate_report_contents_witness :
    ∃ rep, generate_report [crA, crC] = .ok rep ∧
      rep.statsLine = "Processed 2 records. Average Temp: 20.00°C" := by
  obtain ⟨rep, h1, h2, _, _⟩ := generate_report_contents [crA, crC] (by decide)
  refine ⟨rep, h1, ?_⟩
  rw [h2, avg_two_rows]
  decide

/-- Claim C10: for every store with no present temp_c value, the empty
store included, report generation fails with a TypeError while formatting
the absent average temperature, instead of producing a report. -/
theorem generate_report_none_avg_error (s : Store) (h : presentTemps s = []) :
    generate_report s =
      Except.error ("TypeError: unsupported format string passed to NoneType.__format__") := by
  unfold generate_report avg_c
  rw [if_pos h]

/-- Witness for C10 at the empty store. -/
theorem generate_report_none_avg_error_witness :
    generate_report [] =
      Except.error ("TypeError: unsupported format string passed to NoneType.__format__") :=
  generate_report_none_avg_error [] rfl

end Katas4
